import Mathlib

/-!
Verification of the ingestion-and-consistency layer of the course-scraper
repository, shallowly embedded in Lean.

The embedded code consists of the four SQL Server procedures shipped with the
repository:

* `dbo.CourseData_v1` (table type) and `dbo.save_course_data` (MERGE upsert
  of course rows into `dbo.courses`);
* `dbo.save_schema` (MERGE upsert into `dbo.scraper_schemas`);
* `dbo.get_schema` (join of `dbo.scraper_schemas` with `dbo.sources`);
* `dbo.get_data` (TOP 100 projection of `dbo.courses` joined with
  `dbo.sources`).

Tables are embedded as lists of structure values; a SQL `NVARCHAR` column is a
`String`, a nullable column is an `Option String`, and `UNIQUEIDENTIFIER`
values are opaque strings.  A T-SQL `MERGE` statement is embedded by its
documented semantics: every target row matched by a source row receives the
`WHEN MATCHED` update, every source row matched by no target row fires the
`WHEN NOT MATCHED BY TARGET` insert, and the statement fails with error 8672
when a single target row is matched by more than one source row (the MERGE
update/delete-same-row-twice error).  Matching is evaluated against the
target table as it stands when the statement starts, so source rows inserted
by the same statement are never match candidates for one another.
-/

/-- Row of the `dbo.sources` table, as used by the joins in `get_data` and
`get_schema` (column `source_id`) and, for the display name, by the data
model of the spec (Source = identifier plus display name; the enabled flag
is never read by the embedded procedures and is omitted). -/
structure SourceRow where
  source_id : String
  source_display_name : String
deriving DecidableEq

/-- Row of the table type `dbo.CourseData_v1`: `course_code NVARCHAR(255)`
(nullable), `course_title NVARCHAR(512) NOT NULL` (the NOT NULL constraint is
embedded by making the field a plain `String`; note that the empty string
satisfies NOT NULL), `course_description NVARCHAR(MAX)` (nullable). -/
structure CourseData_v1 where
  course_code : Option String
  course_title : String
  course_description : Option String
deriving DecidableEq

/-- Row of the `dbo.courses` table.  The columns written by
`save_course_data` are `course_source_id`, `course_code`, `course_title` and
`course_description`.  The `created_at` field models the creation-timestamp
column of the table (the table definition itself is not among the provided
sources; the spec states that an insert sets created timestamp = now, and the
MERGE update clause touches only `course_description`). -/
structure Course where
  course_source_id : String
  course_code : Option String
  course_title : String
  course_description : Option String
  created_at : Nat
deriving DecidableEq

/-- Row of the `dbo.scraper_schemas` table, as written by `save_schema` and
read by `get_schema`. -/
structure SchemaRow where
  scraper_schema_source_id : String
  scraper_schema_json : String
deriving DecidableEq

/-- The failure mode of the embedded MERGE statement: SQL Server error 8672,
raised when one target row is matched by more than one source row. -/
inductive MergeError where
  | multipleSourceRowsMatchTarget
deriving DecidableEq

/-- COALESCE with the empty string, as used in the ON clause of
`save_course_data`: `COALESCE(x, '')`. -/
def normCode (c : Option String) : String := c.getD ""

/-- The ON clause of the MERGE in `save_course_data`:
`target.course_source_id = source.sid AND
 COALESCE(target.course_code, '') = COALESCE(source.code, '') AND
 target.course_title = source.title`. -/
def mergeMatch (source_id_in : String) (t : Course) (r : CourseData_v1) : Bool :=
  t.course_source_id == source_id_in &&
    normCode t.course_code == normCode r.course_code &&
    t.course_title == r.course_title

/-- Identity key of an incoming row within a source: (normalized code,
title), per the ON clause of `save_course_data`. -/
def rowKey (r : CourseData_v1) : String × String :=
  (normCode r.course_code, r.course_title)

/-- The source rows of the batch that match a given target row under the ON
clause. -/
def matchingRows (source_id_in : String) (t : Course) (course_data : List CourseData_v1) :
    List CourseData_v1 :=
  course_data.filter (fun r => mergeMatch source_id_in t r)

/-- WHEN MATCHED clause of `save_course_data`:
`UPDATE SET course_description = source.description`, applied with the
(unique, in the non-error case) matching source row. -/
def updRow (source_id_in : String) (course_data : List CourseData_v1) (t : Course) : Course :=
  match course_data.find? (fun r => mergeMatch source_id_in t r) with
  | some r => { t with course_description := r.course_description }
  | none => t

/-- The row inserted by the WHEN NOT MATCHED BY TARGET clause of
`save_course_data`:
`INSERT (course_source_id, course_code, course_title, course_description)
 VALUES (source.sid, source.code, source.title, source.description)`,
with the creation timestamp set to the statement time. -/
def mkCourse (source_id_in : String) (r : CourseData_v1) (now : Nat) : Course :=
  ⟨source_id_in, r.course_code, r.course_title, r.course_description, now⟩

/-- WHEN NOT MATCHED BY TARGET clause of `save_course_data`: the source rows
matched by no target row, each inserted. -/
def insRows (source_id_in : String) (course_data : List CourseData_v1) (now : Nat)
    (courses : List Course) : List Course :=
  (course_data.filter (fun r => !courses.any (fun t => mergeMatch source_id_in t r))).map
    (fun r => mkCourse source_id_in r now)

/-- The procedure `dbo.save_course_data`: the MERGE of the batch
`@course_data` into `dbo.courses`, matching on the source id, the
empty-string-normalized code and the title.  `WITH(HOLDLOCK)` makes each
call an atomic, serializable statement, so concurrent calls are embedded as
sequential calls in an arbitrary order.  The result is the new state of the
`courses` table, or error 8672 when some target row is matched by more than
one source row of the batch. -/
def save_course_data (source_id_in : String) (course_data : List CourseData_v1)
    (now : Nat) (courses : List Course) : Except MergeError (List Course) :=
  if courses.any (fun t => decide (2 ≤ (matchingRows source_id_in t course_data).length)) then
    .error .multipleSourceRowsMatchTarget
  else
    .ok (courses.map (updRow source_id_in course_data) ++
      insRows source_id_in course_data now courses)

/-- Number of rows of the `courses` table carrying a given identity key
(source id, normalized code, title). -/
def countKey (source_id_in : String) (code title : String) (courses : List Course) : Nat :=
  (courses.filter (fun t =>
    t.course_source_id == source_id_in &&
      normCode t.course_code == code &&
      t.course_title == title)).length

/-- Sequential execution of one single-row `save_course_data` call per row,
in the order given: the embedding of N concurrent one-row batches once the
HOLDLOCK serialization has totally ordered them. -/
def ingestSingletons (source_id_in : String) (rows : List CourseData_v1) (now : Nat)
    (courses : List Course) : Except MergeError (List Course) :=
  match rows with
  | [] => .ok courses
  | r :: rest =>
    match save_course_data source_id_in [r] now courses with
    | .ok courses2 => ingestSingletons source_id_in rest now courses2
    | .error e => .error e

/-- Characterization of the ON clause as a proposition on the key fields. -/
theorem mergeMatch_iff (source_id_in : String) (t : Course) (r : CourseData_v1) :
    mergeMatch source_id_in t r = true ↔
      t.course_source_id = source_id_in ∧
        normCode t.course_code = normCode r.course_code ∧
        t.course_title = r.course_title := by
  simp [mergeMatch, and_assoc]

/-- The ON clause ignores the description: updating a target row's
description leaves its match behaviour unchanged. -/
theorem mergeMatch_setDesc (source_id_in : String) (t : Course) (d : Option String)
    (r : CourseData_v1) :
    mergeMatch source_id_in { t with course_description := d } r = mergeMatch source_id_in t r :=
  rfl

/-- The WHEN MATCHED update never changes which source rows a target row
matches. -/
theorem mergeMatch_updRow (source_id_in : String) (B : List CourseData_v1) (t : Course)
    (r : CourseData_v1) :
    mergeMatch source_id_in (updRow source_id_in B t) r = mergeMatch source_id_in t r := by
  unfold updRow
  cases B.find? (fun r0 => mergeMatch source_id_in t r0) <;> rfl

/-- A freshly inserted row matches exactly the incoming rows that share its
identity key. -/
theorem mergeMatch_mk (source_id_in : String) (r r2 : CourseData_v1) (now : Nat) :
    mergeMatch source_id_in (mkCourse source_id_in r now) r2 = true ↔ rowKey r2 = rowKey r := by
  rw [mergeMatch_iff]
  simp only [mkCourse, rowKey, Prod.mk.injEq]
  constructor
  · rintro ⟨-, h2, h3⟩
    exact ⟨h2.symm, h3.symm⟩
  · rintro ⟨h2, h3⟩
    exact ⟨trivial, h2.symm, h3.symm⟩

/-- Rows with equal identity keys match exactly the same target rows. -/
theorem mergeMatch_congr_key (source_id_in : String) (t : Course) (r1 r2 : CourseData_v1)
    (h : rowKey r1 = rowKey r2) :
    mergeMatch source_id_in t r1 = mergeMatch source_id_in t r2 := by
  have h1 : normCode r1.course_code = normCode r2.course_code := congrArg Prod.fst h
  have h2 : r1.course_title = r2.course_title := congrArg Prod.snd h
  simp [mergeMatch, h1, h2]

/-- A single-row batch can match a given target row at most once. -/
theorem matchingRows_singleton_length_le (source_id_in : String) (t : Course)
    (r : CourseData_v1) : (matchingRows source_id_in t [r]).length ≤ 1 := by
  simp only [matchingRows, List.filter]
  cases mergeMatch source_id_in t r <;> simp

/-- Evaluation of the MERGE on a single-row batch: never error 8672; the
row updates the target rows it matches, and is inserted when it matches
none. -/
theorem save_single_eq (source_id_in : String) (r : CourseData_v1) (now : Nat)
    (db : List Course) :
    save_course_data source_id_in [r] now db =
      .ok (db.map (updRow source_id_in [r]) ++
        (if db.any (fun t => mergeMatch source_id_in t r) then [] else
          [mkCourse source_id_in r now])) := by
  have hc : (db.any fun t => decide (2 ≤ (matchingRows source_id_in t [r]).length)) = false := by
    rw [List.any_eq_false]
    intro t _
    have := matchingRows_singleton_length_le source_id_in t r
    simp only [decide_eq_true_eq]
    omega
  simp only [save_course_data, hc, Bool.false_eq_true, if_false]
  congr 1
  cases h : db.any (fun t => mergeMatch source_id_in t r) <;>
    simp [insRows, List.filter, h]

/-- MERGE of a single row whose identity key is absent from the table: the
row is inserted at the end and nothing else changes. -/
theorem save_fresh (source_id_in : String) (r : CourseData_v1) (now : Nat)
    (db : List Course) (hfresh : ∀ t ∈ db, mergeMatch source_id_in t r = false) :
    save_course_data source_id_in [r] now db =
      .ok (db ++ [mkCourse source_id_in r now]) := by
  rw [save_single_eq]
  have hany : (db.any fun t => mergeMatch source_id_in t r) = false := by
    rw [List.any_eq_false]; intro t ht; simp [hfresh t ht]
  have hmap : db.map (updRow source_id_in [r]) = db := by
    conv_rhs => rw [← List.map_id db]
    apply List.map_congr_left
    intro t ht
    simp [updRow, List.find?, hfresh t ht]
  simp [hmap, hany]

/-- MERGE of a single row matching exactly one existing target row: only that
row's description is overwritten; its other fields and all other rows are
untouched, and nothing is inserted. -/
theorem save_matched (source_id_in : String) (r : CourseData_v1) (now : Nat)
    (pre post : List Course) (t0 : Course)
    (hm : mergeMatch source_id_in t0 r = true)
    (hpre : ∀ t ∈ pre, mergeMatch source_id_in t r = false)
    (hpost : ∀ t ∈ post, mergeMatch source_id_in t r = false) :
    save_course_data source_id_in [r] now (pre ++ t0 :: post) =
      .ok (pre ++ { t0 with course_description := r.course_description } :: post) := by
  rw [save_single_eq]
  have hany : ((pre ++ t0 :: post).any fun t => mergeMatch source_id_in t r) = true := by
    rw [List.any_eq_true]
    exact ⟨t0, by simp, hm⟩
  have hmappre : pre.map (updRow source_id_in [r]) = pre := by
    conv_rhs => rw [← List.map_id pre]
    apply List.map_congr_left
    intro t ht
    simp [updRow, List.find?, hpre t ht]
  have hmappost : post.map (updRow source_id_in [r]) = post := by
    conv_rhs => rw [← List.map_id post]
    apply List.map_congr_left
    intro t ht
    simp [updRow, List.find?, hpost t ht]
  have ht0 : updRow source_id_in [r] t0 = { t0 with course_description := r.course_description } := by
    simp [updRow, List.find?, hm]
  simp [hany, hmappre, hmappost, ht0]

/-- Identity-key freshness, stated on the raw fields, transfers to the ON
clause. -/
theorem mergeMatch_eq_false_of_key (source_id_in : String) (t : Course) (r : CourseData_v1)
    (h : ¬ (t.course_source_id = source_id_in ∧
      normCode t.course_code = normCode r.course_code ∧ t.course_title = r.course_title)) :
    mergeMatch source_id_in t r = false := by
  rw [Bool.eq_false_iff]
  intro hm
  exact h ((mergeMatch_iff source_id_in t r).mp hm)

/-- C1: for one source, a row with absent code and a row with empty-string
code and the same title resolve to the same Ledger record: ingesting one
after the other yields exactly one record for the identity key
(source, normalized code = empty, title). -/
theorem c1_null_and_empty_code_same_record (source_id_in title : String)
    (d1 d2 : Option String) (t1 t2 : Nat) (db : List Course)
    (hfresh : ∀ t ∈ db, ¬ (t.course_source_id = source_id_in ∧
      normCode t.course_code = "" ∧ t.course_title = title)) :
    save_course_data source_id_in [⟨none, title, d1⟩] t1 db =
      .ok (db ++ [⟨source_id_in, none, title, d1, t1⟩]) ∧
    save_course_data source_id_in [⟨some "", title, d2⟩] t2
        (db ++ [⟨source_id_in, none, title, d1, t1⟩]) =
      .ok (db ++ [⟨source_id_in, none, title, d2, t1⟩]) ∧
    countKey source_id_in "" title (db ++ [⟨source_id_in, none, title, d2, t1⟩]) = 1 := by
  have hf1 : ∀ t ∈ db, mergeMatch source_id_in t ⟨none, title, d1⟩ = false := by
    intro t ht
    exact mergeMatch_eq_false_of_key _ _ _ (hfresh t ht)
  have hf2 : ∀ t ∈ db, mergeMatch source_id_in t ⟨some "", title, d2⟩ = false := by
    intro t ht
    exact mergeMatch_eq_false_of_key _ _ _ (hfresh t ht)
  refine ⟨save_fresh _ _ _ _ hf1, ?_, ?_⟩
  · have hm : mergeMatch source_id_in ⟨source_id_in, none, title, d1, t1⟩
        ⟨some "", title, d2⟩ = true := by
      simp [mergeMatch, normCode]
    exact save_matched source_id_in ⟨some "", title, d2⟩ t2 db []
      ⟨source_id_in, none, title, d1, t1⟩ hm hf2 (by intro t ht; cases ht)
  · have hdb : db.filter (fun t =>
        t.course_source_id == source_id_in &&
          normCode t.course_code == "" && t.course_title == title) = [] := by
      rw [List.filter_eq_nil_iff]
      intro t ht
      have := hfresh t ht
      simp only [Bool.and_eq_true, beq_iff_eq, not_and] at this ⊢
      tauto
    simp [countKey, List.filter_append, hdb, List.filter, normCode]
    intro a ha h1 h2
    have := hfresh a ha
    simp only [normCode] at this
    tauto

/-- C6: re-ingesting a row whose identity key already exists (as the unique
record just created for it) leaves exactly one record for the key, with the
new description, the untouched code, title, source id and created timestamp,
and every other record unchanged. -/
theorem c6_reingest_updates_only_description (source_id_in title : String)
    (code v1 v2 : Option String) (t1 t2 : Nat) (db : List Course)
    (hfresh : ∀ t ∈ db, ¬ (t.course_source_id = source_id_in ∧
      normCode t.course_code = normCode code ∧ t.course_title = title)) :
    save_course_data source_id_in [⟨code, title, v1⟩] t1 db =
      .ok (db ++ [⟨source_id_in, code, title, v1, t1⟩]) ∧
    save_course_data source_id_in [⟨code, title, v2⟩] t2
        (db ++ [⟨source_id_in, code, title, v1, t1⟩]) =
      .ok (db ++ [⟨source_id_in, code, title, v2, t1⟩]) ∧
    countKey source_id_in (normCode code) title
        (db ++ [⟨source_id_in, code, title, v2, t1⟩]) = 1 := by
  have hf1 : ∀ t ∈ db, mergeMatch source_id_in t ⟨code, title, v1⟩ = false := by
    intro t ht
    exact mergeMatch_eq_false_of_key _ _ _ (hfresh t ht)
  have hf2 : ∀ t ∈ db, mergeMatch source_id_in t ⟨code, title, v2⟩ = false := by
    intro t ht
    exact mergeMatch_eq_false_of_key _ _ _ (hfresh t ht)
  refine ⟨save_fresh _ _ _ _ hf1, ?_, ?_⟩
  · have hm : mergeMatch source_id_in ⟨source_id_in, code, title, v1, t1⟩
        ⟨code, title, v2⟩ = true := by
      simp [mergeMatch, normCode]
    exact save_matched source_id_in ⟨code, title, v2⟩ t2 db []
      ⟨source_id_in, code, title, v1, t1⟩ hm hf2 (by intro t ht; cases ht)
  · have hdb : db.filter (fun t =>
        t.course_source_id == source_id_in &&
          normCode t.course_code == normCode code && t.course_title == title) = [] := by
      rw [List.filter_eq_nil_iff]
      intro t ht
      have := hfresh t ht
      simp only [Bool.and_eq_true, beq_iff_eq, not_and] at this ⊢
      tauto
    simp [countKey, List.filter_append, hdb, List.filter, normCode]
    intro a ha h1 h2
    have := hfresh a ha
    simp only [normCode] at this
    tauto

/-- Witness for C1 at a concrete input: an absent-code row and an
empty-string-code row titled Intro end up as one record. -/
theorem c1_null_and_empty_code_same_record_witness :
    save_course_data "S1" [⟨none, "Intro", some "d1"⟩] 1 [] =
      .ok [⟨"S1", none, "Intro", some "d1", 1⟩] ∧
    save_course_data "S1" [⟨some "", "Intro", some "d2"⟩] 2
        [⟨"S1", none, "Intro", some "d1", 1⟩] =
      .ok [⟨"S1", none, "Intro", some "d2", 1⟩] ∧
    countKey "S1" "" "Intro" [⟨"S1", none, "Intro", some "d2", 1⟩] = 1 :=
  c1_null_and_empty_code_same_record "S1" "Intro" (some "d1") (some "d2") 1 2 []
    (by intro t ht; cases ht)

/-- Witness for C6 at a concrete input: CS101/Intro re-ingested with
description v2 after v1. -/
theorem c6_reingest_updates_only_description_witness :
    save_course_data "S1" [⟨some "CS101", "Intro", some "v1"⟩] 1 [] =
      .ok [⟨"S1", some "CS101", "Intro", some "v1", 1⟩] ∧
    save_course_data "S1" [⟨some "CS101", "Intro", some "v2"⟩] 2
        [⟨"S1", some "CS101", "Intro", some "v1", 1⟩] =
      .ok [⟨"S1", some "CS101", "Intro", some "v2", 1⟩] ∧
    countKey "S1" "CS101" "Intro" [⟨"S1", some "CS101", "Intro", some "v2", 1⟩] = 1 :=
  c6_reingest_updates_only_description "S1" "Intro" (some "CS101") (some "v1") (some "v2")
    1 2 [] (by intro t ht; cases ht)

/-- Counterexample to C5 as stated: a row whose title is the empty string is
not rejected or reported; the MERGE inserts it as an ordinary record. -/
theorem c5_counterexample_empty_title_not_rejected :
    save_course_data "S1" [⟨none, "", some "x"⟩] 0 [] =
      .ok [⟨"S1", none, "", some "x", 0⟩] :=
  rfl

/-- C5 amended: the layer performs no title validation beyond the NOT NULL
column constraint of `CourseData_v1`; a row with an empty-string title whose
identity key is fresh is merged (inserted) like any other row, with no
per-row rejection or reporting. -/
theorem c5_amended_empty_title_row_merged (source_id_in : String) (r : CourseData_v1)
    (now : Nat) (db : List Course) (_hempty : r.course_title = "")
    (hfresh : ∀ t ∈ db, mergeMatch source_id_in t r = false) :
    save_course_data source_id_in [r] now db = .ok (db ++ [mkCourse source_id_in r now]) :=
  save_fresh source_id_in r now db hfresh

/-- Witness for the amended C5 at a concrete input: the empty-titled row is
inserted next to an unrelated record, which is left untouched. -/
theorem c5_amended_empty_title_row_merged_witness :
    save_course_data "S1" [⟨none, "", some "x"⟩] 7 [⟨"S1", some "C", "T", none, 0⟩] =
      .ok [⟨"S1", some "C", "T", none, 0⟩, ⟨"S1", none, "", some "x", 7⟩] :=
  c5_amended_empty_title_row_merged "S1" ⟨none, "", some "x"⟩ 7
    [⟨"S1", some "C", "T", none, 0⟩] rfl (by decide)

/-- Counterexample to C3 as stated: the batch with two identical rows titled
A, merged into an empty table, produces two Ledger records for S1/A, not
one. -/
theorem c3_counterexample_intra_batch_duplicate :
    save_course_data "S1" [⟨none, "A", none⟩, ⟨none, "A", none⟩] 0 [] =
      .ok [⟨"S1", none, "A", none, 0⟩, ⟨"S1", none, "A", none, 0⟩] ∧
    countKey "S1" "" "A" [⟨"S1", none, "A", none, 0⟩, ⟨"S1", none, "A", none, 0⟩] = 2 :=
  ⟨rfl, rfl⟩

/-- C3 amended: intra-batch duplicate identity keys are not collapsed by the
MERGE.  When no existing record matches the key, every duplicate row is
inserted, one record per row; when an existing record matches the key, the
statement fails with error 8672 instead of applying last-write-wins. -/
theorem c3_amended_intra_batch_duplicates (source_id_in : String) (r1 r2 : CourseData_v1)
    (now : Nat) (db : List Course) (hkey : rowKey r1 = rowKey r2) :
    ((∀ t ∈ db, mergeMatch source_id_in t r1 = false) →
      save_course_data source_id_in [r1, r2] now db =
        .ok (db ++ [mkCourse source_id_in r1 now, mkCourse source_id_in r2 now])) ∧
    ((∃ t ∈ db, mergeMatch source_id_in t r1 = true) →
      save_course_data source_id_in [r1, r2] now db =
        .error .multipleSourceRowsMatchTarget) := by
  constructor
  · intro hfresh
    have hfresh2 : ∀ t ∈ db, mergeMatch source_id_in t r2 = false := by
      intro t ht
      rw [← mergeMatch_congr_key source_id_in t r1 r2 hkey]
      exact hfresh t ht
    have hc : (db.any fun t =>
        decide (2 ≤ (matchingRows source_id_in t [r1, r2]).length)) = false := by
      rw [List.any_eq_false]
      intro t ht
      simp [matchingRows, List.filter, hfresh t ht, hfresh2 t ht]
    simp only [save_course_data, hc, Bool.false_eq_true, if_false]
    congr 1
    have hmap : db.map (updRow source_id_in [r1, r2]) = db := by
      conv_rhs => rw [← List.map_id db]
      apply List.map_congr_left
      intro t ht
      simp [updRow, List.find?, hfresh t ht, hfresh2 t ht]
    rw [hmap]
    congr 1
    have h1 : (db.any fun t => mergeMatch source_id_in t r1) = false := by
      rw [List.any_eq_false]; intro t ht; simp [hfresh t ht]
    have h2 : (db.any fun t => mergeMatch source_id_in t r2) = false := by
      rw [List.any_eq_false]; intro t ht; simp [hfresh2 t ht]
    simp [insRows, List.filter, h1, h2]
  · rintro ⟨t0, ht0, hm⟩
    have hm2 : mergeMatch source_id_in t0 r2 = true := by
      rw [← mergeMatch_congr_key source_id_in t0 r1 r2 hkey]
      exact hm
    have hc : (db.any fun t =>
        decide (2 ≤ (matchingRows source_id_in t [r1, r2]).length)) = true := by
      rw [List.any_eq_true]
      exact ⟨t0, ht0, by simp [matchingRows, List.filter, hm, hm2]⟩
    simp [save_course_data, hc]

/-- Witness for the amended C3 at concrete inputs: a duplicate pair over an
occupied key fails with error 8672, and a duplicate pair over a fresh key
inserts two records. -/
theorem c3_amended_intra_batch_duplicates_witness :
    save_course_data "S1" [⟨none, "A", none⟩, ⟨none, "A", none⟩] 0
        [⟨"S1", none, "A", none, 0⟩] = .error .multipleSourceRowsMatchTarget ∧
    save_course_data "S2" [⟨none, "B", none⟩, ⟨none, "B", none⟩] 3 [] =
      .ok [⟨"S2", none, "B", none, 3⟩, ⟨"S2", none, "B", none, 3⟩] :=
  ⟨(c3_amended_intra_batch_duplicates "S1" ⟨none, "A", none⟩ ⟨none, "A", none⟩ 0
      [⟨"S1", none, "A", none, 0⟩] rfl).2 ⟨⟨"S1", none, "A", none, 0⟩, by simp, by decide⟩,
    (c3_amended_intra_batch_duplicates "S2" ⟨none, "B", none⟩ ⟨none, "B", none⟩ 3 [] rfl).1
      (by intro t ht; cases ht)⟩

/-- A list whose elements all carry one and the same key, and whose keys are
pairwise distinct, has at most one element. -/
theorem length_le_one_of_pairwise_ne_of_const {α β : Type} (l : List α) (f : α → β)
    (k : β) (hp : l.Pairwise (fun a b => f a ≠ f b)) (hall : ∀ x ∈ l, f x = k) :
    l.length ≤ 1 := by
  match l with
  | [] => simp
  | [a] => simp
  | a :: b :: t =>
    exfalso
    have h := (List.pairwise_cons.mp hp).1 b (by simp)
    exact h ((hall a (by simp)).trans (hall b (by simp)).symm)

/-- Every source row matching a fixed target row carries the key of that
target row. -/
theorem rowKey_of_mergeMatch (source_id_in : String) (t : Course) (r : CourseData_v1)
    (h : mergeMatch source_id_in t r = true) :
    rowKey r = (normCode t.course_code, t.course_title) := by
  obtain ⟨-, h2, h3⟩ := (mergeMatch_iff source_id_in t r).mp h
  simp [rowKey, h2.symm, h3.symm]

/-- When the batch's identity keys are pairwise distinct, no target row is
matched by two source rows. -/
theorem matchingRows_length_le_one_of_pairwise (source_id_in : String) (t : Course)
    (B : List CourseData_v1) (hd : B.Pairwise (fun a b => rowKey a ≠ rowKey b)) :
    (matchingRows source_id_in t B).length ≤ 1 := by
  apply length_le_one_of_pairwise_ne_of_const _ rowKey
    (normCode t.course_code, t.course_title)
  · exact hd.filter _
  · intro r hr
    have hm := List.of_mem_filter hr
    exact rowKey_of_mergeMatch source_id_in t r hm

/-- When the batch's identity keys are pairwise distinct, the MERGE of
`save_course_data` never hits error 8672: it returns the updated table. -/
theorem save_ok_of_pairwise (source_id_in : String) (B : List CourseData_v1)
    (now : Nat) (db : List Course) (hd : B.Pairwise (fun a b => rowKey a ≠ rowKey b)) :
    save_course_data source_id_in B now db =
      .ok (db.map (updRow source_id_in B) ++ insRows source_id_in B now db) := by
  have hc : (db.any fun t =>
      decide (2 ≤ (matchingRows source_id_in t B).length)) = false := by
    rw [List.any_eq_false]
    intro t _
    have := matchingRows_length_le_one_of_pairwise source_id_in t B hd
    simp only [decide_eq_true_eq]
    omega
  simp only [save_course_data, hc, Bool.false_eq_true, if_false]

/-- The WHEN MATCHED update is idempotent on a target row: updating it a
second time against the same batch rewrites the same description. -/
theorem updRow_idem (source_id_in : String) (B : List CourseData_v1) (t : Course) :
    updRow source_id_in B (updRow source_id_in B t) = updRow source_id_in B t := by
  cases hfind : B.find? (fun r => mergeMatch source_id_in t r) with
  | none =>
    have h1 : updRow source_id_in B t = t := by simp [updRow, hfind]
    rw [h1]
    exact h1
  | some r0 =>
    have h1 : updRow source_id_in B t = { t with course_description := r0.course_description } := by
      simp [updRow, hfind]
    rw [h1]
    have h2 : B.find? (fun r =>
        mergeMatch source_id_in { t with course_description := r0.course_description } r) =
        some r0 := hfind
    simp [updRow, h2]

/-- In a batch with pairwise distinct identity keys, two members with the
same key are the same row. -/
theorem pairwise_key_inj (B : List CourseData_v1)
    (hd : B.Pairwise (fun a b => rowKey a ≠ rowKey b)) (y r : CourseData_v1)
    (hy : y ∈ B) (hr : r ∈ B) (hk : rowKey y = rowKey r) : y = r := by
  induction B with
  | nil => cases hy
  | cons a t ih =>
    have hp := List.pairwise_cons.mp hd
    rcases List.mem_cons.mp hy with hy1 | hy2 <;>
      rcases List.mem_cons.mp hr with hr1 | hr2
    · exact hy1.trans hr1.symm
    · exact absurd hk (hy1 ▸ hp.1 r hr2)
    · exact absurd hk.symm (hr1 ▸ hp.1 y hy2)
    · exact ih hp.2 hy2 hr2

/-- Counterexample to C2 as stated: for the batch with an intra-batch
duplicate key, the first ingest succeeds (creating two records) but the
second ingest of the very same batch fails with error 8672 instead of
reporting zero inserts. -/
theorem c2_counterexample_duplicate_batch_not_idempotent :
    save_course_data "S1" [⟨none, "A", none⟩, ⟨none, "A", none⟩] 0 [] =
      .ok [⟨"S1", none, "A", none, 0⟩, ⟨"S1", none, "A", none, 0⟩] ∧
    save_course_data "S1" [⟨none, "A", none⟩, ⟨none, "A", none⟩] 0
        [⟨"S1", none, "A", none, 0⟩, ⟨"S1", none, "A", none, 0⟩] =
      .error .multipleSourceRowsMatchTarget :=
  ⟨rfl, rfl⟩

/-- C2 amended: for batches whose rows have pairwise distinct identity keys,
ingesting the batch twice is idempotent: both calls succeed, and the second
call inserts nothing and returns the Ledger state of the first call
unchanged. -/
theorem c2_amended_distinct_keys_idempotent (source_id_in : String)
    (B : List CourseData_v1) (now now2 : Nat) (db : List Course)
    (hd : B.Pairwise (fun a b => rowKey a ≠ rowKey b)) :
    ∃ db2, save_course_data source_id_in B now db = .ok db2 ∧
      save_course_data source_id_in B now2 db2 = .ok db2 := by
  refine ⟨db.map (updRow source_id_in B) ++ insRows source_id_in B now db,
    save_ok_of_pairwise source_id_in B now db hd, ?_⟩
  rw [save_ok_of_pairwise source_id_in B now2 _ hd]
  have hall : ∀ r ∈ B, ((db.map (updRow source_id_in B) ++
      insRows source_id_in B now db).any fun t => mergeMatch source_id_in t r) = true := by
    intro r hr
    rw [List.any_eq_true]
    cases h : db.any (fun t => mergeMatch source_id_in t r) with
    | true =>
      obtain ⟨t, ht, hm⟩ := List.any_eq_true.mp h
      exact ⟨updRow source_id_in B t,
        List.mem_append_left _ (List.mem_map_of_mem _ ht),
        by rw [mergeMatch_updRow]; exact hm⟩
    | false =>
      refine ⟨mkCourse source_id_in r now, ?_, ?_⟩
      · apply List.mem_append_right
        apply List.mem_map_of_mem
        exact List.mem_filter.mpr ⟨hr, by simp [h]⟩
      · exact (mergeMatch_mk source_id_in r r now).mpr rfl
  have hins : insRows source_id_in B now2
      (db.map (updRow source_id_in B) ++ insRows source_id_in B now db) = [] := by
    have hfilter : B.filter (fun r => !(db.map (updRow source_id_in B) ++
        insRows source_id_in B now db).any (fun t => mergeMatch source_id_in t r)) = [] := by
      rw [List.filter_eq_nil_iff]
      intro r hr
      simp [hall r hr]
    show (B.filter (fun r => !(db.map (updRow source_id_in B) ++
        insRows source_id_in B now db).any (fun t => mergeMatch source_id_in t r))).map
      (fun r => mkCourse source_id_in r now2) = []
    rw [hfilter]
    rfl
  have h1 : (db.map (updRow source_id_in B)).map (updRow source_id_in B) =
      db.map (updRow source_id_in B) := by
    rw [List.map_map]
    apply List.map_congr_left
    intro t _
    exact updRow_idem source_id_in B t
  have h2 : (insRows source_id_in B now db).map (updRow source_id_in B) =
      insRows source_id_in B now db := by
    unfold insRows
    rw [List.map_map]
    apply List.map_congr_left
    intro r hr
    have hrB : r ∈ B := (List.mem_filter.mp hr).1
    show updRow source_id_in B (mkCourse source_id_in r now) = mkCourse source_id_in r now
    cases hfind : B.find? (fun r2 => mergeMatch source_id_in (mkCourse source_id_in r now) r2) with
    | none => simp [updRow, hfind]
    | some y =>
      have hy : y ∈ B := List.mem_of_find?_eq_some hfind
      have hpy : mergeMatch source_id_in (mkCourse source_id_in r now) y = true :=
        List.find?_some hfind
      have hkey : rowKey y = rowKey r := (mergeMatch_mk source_id_in r y now).mp hpy
      have hyr : y = r := pairwise_key_inj B hd y r hy hrB hkey
      subst hyr
      unfold updRow
      rw [hfind]
      rfl
  rw [List.map_append, h1, h2, hins, List.append_nil]

/-- Witness for the amended C2 at a concrete input: a two-row batch with
distinct keys, ingested twice from the empty table. -/
theorem c2_amended_distinct_keys_idempotent_witness :
    ∃ db2, save_course_data "S1" [⟨some "C1", "A", some "d"⟩, ⟨none, "B", none⟩] 1 [] =
        .ok db2 ∧
      save_course_data "S1" [⟨some "C1", "A", some "d"⟩, ⟨none, "B", none⟩] 2 db2 =
        .ok db2 :=
  c2_amended_distinct_keys_idempotent "S1" [⟨some "C1", "A", some "d"⟩, ⟨none, "B", none⟩]
    1 2 [] (by decide)

/-- Serialized ingestion of single-row batches whose keys are fresh and
pairwise distinct appends exactly one record per row, in order. -/
theorem ingest_fresh_distinct (source_id_in : String) (l : List CourseData_v1)
    (now : Nat) (db : List Course)
    (hf : ∀ r ∈ l, ∀ t ∈ db, mergeMatch source_id_in t r = false)
    (hd : l.Pairwise (fun a b => rowKey a ≠ rowKey b)) :
    ingestSingletons source_id_in l now db =
      .ok (db ++ l.map (fun r => mkCourse source_id_in r now)) := by
  induction l generalizing db with
  | nil => simp [ingestSingletons]
  | cons r rest ih =>
    have hfr : ∀ t ∈ db, mergeMatch source_id_in t r = false :=
      fun t ht => hf r (List.mem_cons_self r rest) t ht
    have hp := List.pairwise_cons.mp hd
    rw [ingestSingletons, save_fresh _ _ _ _ hfr]
    show ingestSingletons source_id_in rest now (db ++ [mkCourse source_id_in r now]) = _
    rw [ih (db ++ [mkCourse source_id_in r now]) ?hf2 hp.2]
    · simp
    · intro r2 hr2 t ht
      rcases List.mem_append.mp ht with htdb | htmk
      · exact hf r2 (List.mem_cons_of_mem r hr2) t htdb
      · have htm : t = mkCourse source_id_in r now := by simpa using htmk
        subst htm
        rw [Bool.eq_false_iff]
        intro htrue
        exact hp.1 r2 hr2 ((mergeMatch_mk source_id_in r r2 now).mp htrue).symm

/-- In a list whose keys are pairwise distinct, exactly one member carries
the key of a given member. -/
theorem filter_key_length_eq_one {α β : Type} [BEq β] [LawfulBEq β] (l : List α) (f : α → β)
    (hp : l.Pairwise (fun a b => f a ≠ f b)) (r : α) (hr : r ∈ l) :
    (l.filter (fun x => f x == f r)).length = 1 := by
  induction l with
  | nil => cases hr
  | cons a t ih =>
    have hp1 := List.pairwise_cons.mp hp
    rcases List.mem_cons.mp hr with hr1 | hr2
    · subst hr1
      have hta : t.filter (fun x => f x == f r) = [] := by
        rw [List.filter_eq_nil_iff]
        intro x hx
        simp only [beq_iff_eq]
        exact fun hxa => (hp1.1 x hx) hxa.symm
      simp [List.filter, hta]
    · have hfa : (f a == f r) = false := by
        simp only [beq_eq_false_iff_ne, ne_eq]
        exact hp1.1 r hr2
      simp only [List.filter, hfa]
      exact ih hp1.2 hr2

/-- The count of an identity key in the table is the count of targets
matched by a row carrying that key. -/
theorem countKey_eq_filter_match (source_id_in : String) (r : CourseData_v1)
    (db : List Course) :
    countKey source_id_in (normCode r.course_code) r.course_title db =
      (db.filter (fun t => mergeMatch source_id_in t r)).length :=
  rfl

/-- C4: with the per-source HOLDLOCK serialization embedding concurrent
calls as sequential calls in an arbitrary order, N single-row ingests with
previously-unseen, pairwise distinct identity keys always succeed and
produce exactly N records, one per key, no duplicates, whatever the order
of execution. -/
theorem c4_concurrent_fresh_singletons (source_id_in : String)
    (rows rows2 : List CourseData_v1) (now : Nat) (db : List Course)
    (hperm : rows2.Perm rows)
    (hfresh : ∀ r ∈ rows, ∀ t ∈ db, mergeMatch source_id_in t r = false)
    (hd : rows.Pairwise (fun a b => rowKey a ≠ rowKey b)) :
    ∃ db2, ingestSingletons source_id_in rows2 now db = .ok db2 ∧
      db2.length = db.length + rows.length ∧
      ∀ r ∈ rows, countKey source_id_in (normCode r.course_code) r.course_title db2 = 1 := by
  have hd2 : rows2.Pairwise (fun a b => rowKey a ≠ rowKey b) :=
    (hperm.pairwise_iff (fun hab hba => hab hba.symm)).mpr hd
  have hfresh2 : ∀ r ∈ rows2, ∀ t ∈ db, mergeMatch source_id_in t r = false :=
    fun r hr => hfresh r (hperm.mem_iff.mp hr)
  refine ⟨db ++ rows2.map (fun r => mkCourse source_id_in r now),
    ingest_fresh_distinct source_id_in rows2 now db hfresh2 hd2, ?_, ?_⟩
  · simp [hperm.length_eq]
  · intro r hr
    rw [countKey_eq_filter_match, List.filter_append, List.length_append]
    have hdb0 : db.filter (fun t => mergeMatch source_id_in t r) = [] := by
      rw [List.filter_eq_nil_iff]
      intro t ht
      simp [hfresh r hr t ht]
    have hmap : (rows2.map (fun r2 => mkCourse source_id_in r2 now)).filter
        (fun t => mergeMatch source_id_in t r) =
        (rows2.filter (fun r2 => rowKey r2 == rowKey r)).map
          (fun r2 => mkCourse source_id_in r2 now) := by
      rw [List.filter_map]
      congr 1
      apply List.filter_congr
      intro r2 _
      show mergeMatch source_id_in (mkCourse source_id_in r2 now) r = (rowKey r2 == rowKey r)
      by_cases hk : rowKey r2 = rowKey r
      · have hm : mergeMatch source_id_in (mkCourse source_id_in r2 now) r = true := by
          rw [mergeMatch_mk]
          exact hk.symm
        simp [hm, hk]
      · have hm : mergeMatch source_id_in (mkCourse source_id_in r2 now) r = false := by
          rw [Bool.eq_false_iff]
          intro htrue
          exact hk ((mergeMatch_mk source_id_in r2 r now).mp htrue).symm
        simp [hm, hk]
    rw [hdb0, hmap, List.length_map]
    have hone : (rows2.filter (fun r2 => rowKey r2 == rowKey r)).length = 1 :=
      filter_key_length_eq_one rows2 rowKey hd2 r (hperm.mem_iff.mpr hr)
    simp [hone]

/-- Witness for C4 at a concrete input: three fresh single-row batches for
source S1, executed in a permuted order over a table already holding an
unrelated record of source S2, yield three new records, one per key. -/
theorem c4_concurrent_fresh_singletons_witness :
    ∃ db2, ingestSingletons "S1"
        [⟨none, "B", none⟩, ⟨some "C", "C", none⟩, ⟨none, "A", none⟩] 5
        [⟨"S2", none, "A", none, 0⟩] = .ok db2 ∧
      db2.length = 1 + 3 ∧
      ∀ r ∈ [(⟨none, "A", none⟩ : CourseData_v1), ⟨none, "B", none⟩, ⟨some "C", "C", none⟩],
        countKey "S1" (normCode r.course_code) r.course_title db2 = 1 :=
  c4_concurrent_fresh_singletons "S1"
    [⟨none, "A", none⟩, ⟨none, "B", none⟩, ⟨some "C", "C", none⟩]
    [⟨none, "B", none⟩, ⟨some "C", "C", none⟩, ⟨none, "A", none⟩] 5
    [⟨"S2", none, "A", none, 0⟩] (by decide) (by decide) (by decide)

/-- The procedure `dbo.save_schema`: MERGE into `dbo.scraper_schemas` with
the one-row source `(SELECT @source_id_in, @schema_json_in)`, matching on
`target.scraper_schema_source_id = source.source_id`; matched rows get their
`scraper_schema_json` overwritten, and when no row matches, the pair is
inserted.  A one-row source can never match one target row twice, so this
MERGE has no error case. -/
def save_schema (source_id_in : String) (schema_json_in : String)
    (scraper_schemas : List SchemaRow) : List SchemaRow :=
  if scraper_schemas.any (fun s => s.scraper_schema_source_id == source_id_in) then
    scraper_schemas.map (fun s =>
      if s.scraper_schema_source_id == source_id_in then
        { s with scraper_schema_json := schema_json_in }
      else s)
  else
    scraper_schemas ++ [⟨source_id_in, schema_json_in⟩]

/-- The procedure `dbo.get_schema`: select `scraper_schema_json` from
`dbo.scraper_schemas` joined with `dbo.sources` on
`s.source_id = ss.scraper_schema_source_id`, restricted to
`s.source_id = @source_id_in`. -/
def get_schema (source_id_in : String) (sources : List SourceRow)
    (scraper_schemas : List SchemaRow) : List String :=
  (scraper_schemas.filter (fun ss =>
    ss.scraper_schema_source_id == source_id_in &&
      sources.any (fun s => s.source_id == ss.scraper_schema_source_id))).map
    (fun ss => ss.scraper_schema_json)

/-- C10: `save_schema` is idempotent: writing the same payload twice leaves
the schema store exactly as one write leaves it; the second call takes the
update branch and rewrites the same value, inserting no second row. -/
theorem c10_save_schema_idempotent (source_id_in schema_json_in : String)
    (scraper_schemas : List SchemaRow) :
    save_schema source_id_in schema_json_in
        (save_schema source_id_in schema_json_in scraper_schemas) =
      save_schema source_id_in schema_json_in scraper_schemas := by
  unfold save_schema
  by_cases h : scraper_schemas.any (fun s => s.scraper_schema_source_id == source_id_in) = true
  · simp only [h, if_true]
    have hany : (scraper_schemas.map (fun s =>
        if s.scraper_schema_source_id == source_id_in then
          { s with scraper_schema_json := schema_json_in }
        else s)).any
        (fun s => s.scraper_schema_source_id == source_id_in) = true := by
      rw [List.any_map, List.any_eq_true] at *
      obtain ⟨s, hs, hp⟩ := h
      obtain ⟨a, b⟩ := s
      exact ⟨⟨a, b⟩, hs, by simp only [Function.comp] at *; simp [hp]⟩
    simp only [hany, if_true]
    rw [List.map_map]
    apply List.map_congr_left
    intro s _
    simp only [Function.comp]
    obtain ⟨a, b⟩ := s
    by_cases hp : (a == source_id_in) = true <;> simp [hp]
  · simp only [Bool.not_eq_true] at h
    simp only [h, Bool.false_eq_true, if_false]
    have hany2 : ((scraper_schemas ++ [(⟨source_id_in, schema_json_in⟩ : SchemaRow)]).any
        (fun s => s.scraper_schema_source_id == source_id_in)) = true := by
      rw [List.any_eq_true]
      refine ⟨⟨source_id_in, schema_json_in⟩, ?_, ?_⟩
      · exact List.mem_append_right _ (by simp)
      · simp
    simp only [hany2, if_true]
    rw [List.map_append]
    have h1 : scraper_schemas.map (fun s =>
        if s.scraper_schema_source_id == source_id_in then
          { s with scraper_schema_json := schema_json_in }
        else s) = scraper_schemas := by
      conv_rhs => rw [← List.map_id scraper_schemas]
      apply List.map_congr_left
      intro s hs
      have hp : (s.scraper_schema_source_id == source_id_in) = false :=
        Bool.eq_false_iff.mpr (List.any_eq_false.mp h s hs)
      simp [hp]
    rw [h1]
    simp

/-- Restricted to a registered source, the join filter of `get_schema`
collapses to the source-id test on the schema row. -/
theorem get_schema_eq_of_registered (source_id_in : String) (sources : List SourceRow)
    (scraper_schemas : List SchemaRow)
    (hreg : sources.any (fun s => s.source_id == source_id_in) = true) :
    get_schema source_id_in sources scraper_schemas =
      (scraper_schemas.filter
        (fun ss => ss.scraper_schema_source_id == source_id_in)).map
        (fun ss => ss.scraper_schema_json) := by
  unfold get_schema
  congr 1
  apply List.filter_congr
  intro ss _
  cases hss : (ss.scraper_schema_source_id == source_id_in) with
  | false => simp [hss]
  | true =>
    have heq : ss.scraper_schema_source_id = source_id_in := by simpa using hss
    simp [hss, heq, hreg]

/-- One `save_schema` write for a registered source makes `get_schema`
return exactly the written payload, and preserves the at-most-one-row
invariant for that source. -/
theorem get_schema_after_save (source_id_in p : String) (sources : List SourceRow)
    (scraper_schemas : List SchemaRow)
    (hreg : sources.any (fun s => s.source_id == source_id_in) = true)
    (hwf : (scraper_schemas.filter
      (fun ss => ss.scraper_schema_source_id == source_id_in)).length ≤ 1) :
    get_schema source_id_in sources (save_schema source_id_in p scraper_schemas) = [p] ∧
    ((save_schema source_id_in p scraper_schemas).filter
      (fun ss => ss.scraper_schema_source_id == source_id_in)).length ≤ 1 := by
  rw [get_schema_eq_of_registered source_id_in sources _ hreg]
  unfold save_schema
  by_cases h : scraper_schemas.any (fun s => s.scraper_schema_source_id == source_id_in) = true
  · simp only [h, if_true]
    have hfm : (scraper_schemas.map (fun s =>
        if s.scraper_schema_source_id == source_id_in then
          { s with scraper_schema_json := p }
        else s)).filter (fun ss => ss.scraper_schema_source_id == source_id_in) =
        (scraper_schemas.filter
          (fun ss => ss.scraper_schema_source_id == source_id_in)).map (fun s =>
            if s.scraper_schema_source_id == source_id_in then
              { s with scraper_schema_json := p }
            else s) := by
      rw [List.filter_map]
      congr 1
      apply List.filter_congr
      intro s _
      obtain ⟨a, b⟩ := s
      simp only [Function.comp]
      by_cases hp : (a == source_id_in) = true <;> simp [hp]
    obtain ⟨s0, hs0, hp0⟩ := List.any_eq_true.mp h
    have hmem : s0 ∈ scraper_schemas.filter
        (fun ss => ss.scraper_schema_source_id == source_id_in) :=
      List.mem_filter.mpr ⟨hs0, hp0⟩
    have hlen1 : (scraper_schemas.filter
        (fun ss => ss.scraper_schema_source_id == source_id_in)).length = 1 := by
      have := List.length_pos_of_mem hmem
      omega
    obtain ⟨x, hx⟩ := List.length_eq_one.mp hlen1
    have hxmem : x ∈ scraper_schemas.filter
        (fun ss => ss.scraper_schema_source_id == source_id_in) := by
      rw [hx]; simp
    have hpx : (x.scraper_schema_source_id == source_id_in) = true :=
      (List.mem_filter.mp hxmem).2
    rw [hfm, hx]
    obtain ⟨a, b⟩ := x
    simp only [List.map_cons, List.map_nil]
    simp [hpx]
  · simp only [Bool.not_eq_true] at h
    simp only [h, Bool.false_eq_true, if_false]
    have hnil : scraper_schemas.filter
        (fun ss => ss.scraper_schema_source_id == source_id_in) = [] := by
      rw [List.filter_eq_nil_iff]
      intro s hs
      simp [List.any_eq_false.mp h s hs]
    rw [List.filter_append, hnil]
    simp

/-- C7: for a registered source holding at most one schema row, a schema
write followed by a read returns exactly the written payload, and a second
write makes the read return only the second payload: one live schema per
source, no history. -/
theorem c7_put_get_schema_replaces (source_id_in p1 p2 : String)
    (sources : List SourceRow) (scraper_schemas : List SchemaRow)
    (hreg : sources.any (fun s => s.source_id == source_id_in) = true)
    (hwf : (scraper_schemas.filter
      (fun ss => ss.scraper_schema_source_id == source_id_in)).length ≤ 1) :
    get_schema source_id_in sources (save_schema source_id_in p1 scraper_schemas) = [p1] ∧
    get_schema source_id_in sources
      (save_schema source_id_in p2 (save_schema source_id_in p1 scraper_schemas)) = [p2] := by
  obtain ⟨h1, hwf1⟩ := get_schema_after_save source_id_in p1 sources scraper_schemas hreg hwf
  obtain ⟨h2, -⟩ := get_schema_after_save source_id_in p2 sources
    (save_schema source_id_in p1 scraper_schemas) hreg hwf1
  exact ⟨h1, h2⟩

/-- Witness for C7 at a concrete input: source S1 with an empty schema
store, written twice. -/
theorem c7_put_get_schema_replaces_witness :
    get_schema "S1" [⟨"S1", "Uni"⟩] (save_schema "S1" "payload1" []) = ["payload1"] ∧
    get_schema "S1" [⟨"S1", "Uni"⟩]
      (save_schema "S1" "payload2" (save_schema "S1" "payload1" [])) = ["payload2"] :=
  c7_put_get_schema_replaces "S1" "payload1" "payload2" [⟨"S1", "Uni"⟩] []
    (by decide) (by decide)

/-- The procedure `dbo.get_data`: the projection
`SELECT TOP 100 course_code, course_title, course_description` from
`dbo.courses` joined with `dbo.sources` on
`s.source_id = c.course_source_id`, restricted to
`s.source_id = @source_id_in`. -/
def get_data (source_id_in : String) (sources : List SourceRow)
    (courses : List Course) : List (Option String × String × Option String) :=
  ((courses.filter (fun c => sources.any (fun s =>
      s.source_id == c.course_source_id && s.source_id == source_id_in))).map
    (fun c => (c.course_code, c.course_title, c.course_description))).take 100

/-- Identity key of a stored course row: (normalized code, title). -/
def courseKey (c : Course) : String × String :=
  (normCode c.course_code, c.course_title)

/-- Deduplication by identity key: a maximal subsequence whose keys are
pairwise distinct. -/
def dedupByKey (l : List Course) : List Course :=
  l.pwFilter (fun c1 c2 => courseKey c1 ≠ courseKey c2)

/-- Result shape of the per-source course preview of the Read API. -/
structure CoursePreview where
  source_display_name : String
  distinct_course_count : Nat
  sample : List Course
deriving DecidableEq

/-- Modelled from the spec: the per-source course preview operation of the
Read API.  The dashboard backend endpoint implementing it is not among the
provided sources (only the SQL procedures and the frontend are), so this
definition follows the spec text: a deduplicated sample of the source's
course records capped at a caller-supplied limit, the total distinct-course
count returned alongside, the source display name, and an absent result —
not an error — for an unregistered source. -/
def coursePreview (source_id_in : String) (limit : Nat) (sources : List SourceRow)
    (courses : List Course) : Option CoursePreview :=
  match sources.find? (fun s => s.source_id == source_id_in) with
  | none => none
  | some s =>
    let d := dedupByKey (courses.filter (fun c => c.course_source_id == source_id_in))
    some ⟨s.source_display_name, d.length, d.take limit⟩

/-- The keys surviving deduplication are exactly the deduplicated keys. -/
theorem dedupByKey_map_key (l : List Course) :
    (dedupByKey l).map courseKey = (l.map courseKey).dedup := by
  induction l with
  | nil => rfl
  | cons c t ih =>
    simp only [dedupByKey] at *
    by_cases h : courseKey c ∈ t.map courseKey
    · have h2 : courseKey c ∈
          (t.pwFilter (fun c1 c2 => courseKey c1 ≠ courseKey c2)).map courseKey := by
        rw [ih]
        exact List.mem_dedup.mpr h
      obtain ⟨b, hb, hkb⟩ := List.mem_map.mp h2
      have hneg : ¬ ∀ b2 ∈ t.pwFilter (fun c1 c2 => courseKey c1 ≠ courseKey c2),
          courseKey c ≠ courseKey b2 := by
        intro hall
        exact hall b hb hkb.symm
      rw [List.pwFilter_cons_of_neg hneg, List.map_cons, List.dedup_cons_of_mem h]
      exact ih
    · have hpos : ∀ b ∈ t.pwFilter (fun c1 c2 => courseKey c1 ≠ courseKey c2),
          courseKey c ≠ courseKey b := by
        intro b hb heq
        apply h
        rw [heq]
        exact List.mem_map.mpr ⟨b, (List.pwFilter_sublist t).subset hb, rfl⟩
      rw [List.pwFilter_cons_of_pos hpos, List.map_cons, List.map_cons,
        List.dedup_cons_of_not_mem h, ih]

/-- C9: the per-source course preview returns, for every source and
caller-supplied limit, a deduplicated sample of at most `limit` course rows
of that source, together with the total distinct-course count of the
source. -/
theorem c9_course_preview_dedup_capped (source_id_in : String) (limit : Nat)
    (sources : List SourceRow) (courses : List Course) (p : CoursePreview)
    (h : coursePreview source_id_in limit sources courses = some p) :
    p.sample.length ≤ limit ∧
    List.Pairwise (fun c1 c2 => courseKey c1 ≠ courseKey c2) p.sample ∧
    p.distinct_course_count =
      ((courses.filter (fun c => c.course_source_id == source_id_in)).map
        courseKey).dedup.length ∧
    ∀ c ∈ p.sample, c ∈ courses ∧ c.course_source_id = source_id_in := by
  unfold coursePreview at h
  cases hfind : sources.find? (fun s => s.source_id == source_id_in) with
  | none => rw [hfind] at h; cases h
  | some s =>
    rw [hfind] at h
    injection h with h
    subst h
    refine ⟨?_, ?_, ?_, ?_⟩
    · rw [List.length_take]
      exact min_le_left _ _
    · exact List.Pairwise.sublist (List.take_sublist _ _) (List.pairwise_pwFilter _)
    · have hlen := congrArg List.length
        (dedupByKey_map_key (courses.filter (fun c => c.course_source_id == source_id_in)))
      simpa using hlen
    · intro c hc
      have h1 : c ∈ dedupByKey
          (courses.filter (fun c2 => c2.course_source_id == source_id_in)) :=
        List.mem_of_mem_take hc
      have h2 : c ∈ courses.filter (fun c2 => c2.course_source_id == source_id_in) :=
        (List.pwFilter_sublist _).subset h1
      have h3 := List.mem_filter.mp h2
      exact ⟨h3.1, by simpa using h3.2⟩

/-- Witness for C9 at a concrete input: source S1 with three rows, two of
which share the identity key (empty A), previewed with limit 2. -/
theorem c9_course_preview_dedup_capped_witness :
    ∃ p, coursePreview "S1" 2 [⟨"S1", "Uni"⟩]
        [⟨"S1", none, "A", none, 0⟩, ⟨"S1", some "", "A", some "d", 1⟩,
          ⟨"S1", none, "B", none, 2⟩, ⟨"S2", none, "C", none, 3⟩] = some p ∧
      p.sample.length ≤ 2 ∧
      List.Pairwise (fun c1 c2 => courseKey c1 ≠ courseKey c2) p.sample ∧
      p.distinct_course_count = 2 := by
  have hmain := c9_course_preview_dedup_capped "S1" 2 [⟨"S1", "Uni"⟩]
    [⟨"S1", none, "A", none, 0⟩, ⟨"S1", some "", "A", some "d", 1⟩,
      ⟨"S1", none, "B", none, 2⟩, ⟨"S2", none, "C", none, 3⟩]
    ⟨"Uni", 2, [⟨"S1", some "", "A", some "d", 1⟩, ⟨"S1", none, "B", none, 2⟩]⟩ rfl
  exact ⟨⟨"Uni", 2, [⟨"S1", some "", "A", some "d", 1⟩, ⟨"S1", none, "B", none, 2⟩]⟩,
    rfl, hmain.1, hmain.2.1, hmain.2.2.1⟩

/-- C8: reads for a source with no stored schema, no ingested courses or no
registration return empty or absent results, never an error; the preview of
a registered source with zero rows reports a zero distinct-course count and
an empty sample. -/
theorem c8_reads_empty_not_error (source_id_in : String) (limit : Nat)
    (sources : List SourceRow) (scraper_schemas : List SchemaRow)
    (courses : List Course) :
    ((∀ ss ∈ scraper_schemas, ss.scraper_schema_source_id ≠ source_id_in) →
      get_schema source_id_in sources scraper_schemas = []) ∧
    ((∀ c ∈ courses, c.course_source_id ≠ source_id_in) →
      get_data source_id_in sources courses = []) ∧
    (∀ s : SourceRow, sources.find? (fun s2 => s2.source_id == source_id_in) = some s →
      (∀ c ∈ courses, c.course_source_id ≠ source_id_in) →
      coursePreview source_id_in limit sources courses =
        some ⟨s.source_display_name, 0, []⟩) ∧
    ((∀ s ∈ sources, s.source_id ≠ source_id_in) →
      get_schema source_id_in sources scraper_schemas = [] ∧
      get_data source_id_in sources courses = [] ∧
      coursePreview source_id_in limit sources courses = none) := by
  refine ⟨?_, ?_, ?_, ?_⟩
  · intro h
    have h0 : scraper_schemas.filter (fun ss =>
        ss.scraper_schema_source_id == source_id_in &&
          sources.any (fun s => s.source_id == ss.scraper_schema_source_id)) = [] := by
      rw [List.filter_eq_nil_iff]
      intro ss hss
      simp [h ss hss]
    simp [get_schema, h0]
  · intro h
    have h0 : courses.filter (fun c => sources.any (fun s =>
        s.source_id == c.course_source_id && s.source_id == source_id_in)) = [] := by
      rw [List.filter_eq_nil_iff]
      intro c hc hany
      obtain ⟨s, -, hsp⟩ := List.any_eq_true.mp hany
      simp only [Bool.and_eq_true, beq_iff_eq] at hsp
      exact h c hc (hsp.1.symm.trans hsp.2)
    simp [get_data, h0]
  · intro s hfind h
    have h0 : courses.filter (fun c => c.course_source_id == source_id_in) = [] := by
      rw [List.filter_eq_nil_iff]
      intro c hc
      simp [h c hc]
    simp [coursePreview, hfind, h0, dedupByKey]
  · intro h
    have hfindnone : sources.find? (fun s2 => s2.source_id == source_id_in) = none := by
      rw [List.find?_eq_none]
      intro s hs
      simp [h s hs]
    refine ⟨?_, ?_, ?_⟩
    · have h0 : scraper_schemas.filter (fun ss =>
          ss.scraper_schema_source_id == source_id_in &&
            sources.any (fun s => s.source_id == ss.scraper_schema_source_id)) = [] := by
        rw [List.filter_eq_nil_iff]
        intro ss hss htrue
        simp only [Bool.and_eq_true, beq_iff_eq] at htrue
        obtain ⟨h1, h2⟩ := htrue
        obtain ⟨s, hs, hsp⟩ := List.any_eq_true.mp h2
        simp only [beq_iff_eq] at hsp
        exact h s hs (hsp.trans h1)
      simp [get_schema, h0]
    · have h0 : courses.filter (fun c => sources.any (fun s =>
          s.source_id == c.course_source_id && s.source_id == source_id_in)) = [] := by
        rw [List.filter_eq_nil_iff]
        intro c hc hany
        obtain ⟨s, hs, hsp⟩ := List.any_eq_true.mp hany
        simp only [Bool.and_eq_true, beq_iff_eq] at hsp
        exact h s hs hsp.2
      simp [get_data, h0]
    · simp [coursePreview, hfindnone]

/-- Witness for C8 at concrete inputs: a registered source S1 with no
schema row and no course rows of its own, and an unregistered source SX. -/
theorem c8_reads_empty_not_error_witness :
    get_schema "S1" [⟨"S1", "Uni"⟩] [⟨"S2", "schemaA"⟩] = [] ∧
    get_data "S1" [⟨"S1", "Uni"⟩] [⟨"S2", none, "A", none, 0⟩] = [] ∧
    coursePreview "S1" 5 [⟨"S1", "Uni"⟩] [⟨"S2", none, "A", none, 0⟩] =
      some ⟨"Uni", 0, []⟩ ∧
    coursePreview "SX" 5 [⟨"S1", "Uni"⟩] [] = none := by
  refine ⟨?_, ?_, ?_, ?_⟩
  · exact (c8_reads_empty_not_error "S1" 5 [⟨"S1", "Uni"⟩] [⟨"S2", "schemaA"⟩]
      [⟨"S2", none, "A", none, 0⟩]).1 (by decide)
  · exact (c8_reads_empty_not_error "S1" 5 [⟨"S1", "Uni"⟩] [⟨"S2", "schemaA"⟩]
      [⟨"S2", none, "A", none, 0⟩]).2.1 (by decide)
  · exact (c8_reads_empty_not_error "S1" 5 [⟨"S1", "Uni"⟩] [⟨"S2", "schemaA"⟩]
      [⟨"S2", none, "A", none, 0⟩]).2.2.1 ⟨"S1", "Uni"⟩ rfl (by decide)
  · exact ((c8_reads_empty_not_error "SX" 5 [⟨"S1", "Uni"⟩] [] []).2.2.2 (by decide)).2.2
